import Mathlib

/-!
Verification model of the wasmi execution core and tracer.

The definitions below are a shallow embedding of the Rust sources in
crates/wasmi/src/tracer/ (etable.rs, mtable.rs, imtable.rs, mod.rs) and
crates/wasmi/src/engine/executor/mod.rs.  Machine integers are modelled
as Nat; the only place where 32-bit wraparound is observable on the
claims under study (the IMTable terminator offset) uses an explicit
modulus.  External collaborators (the host trampoline, the instruction
executor, the code map) are modelled as function parameters.
-/

namespace Wasmi

/-! ### Tracer data model (tracer/etable.rs, tracer/mtable.rs, tracer/imtable.rs) -/

/-- `crate::Val` as the tracer stores it; opaque for the claims at hand. -/
abbrev TVal := Nat

/-- `IVal` from etable.rs: one value together with its stack address. -/
structure IVal where
  val : TVal
  addr : Nat
deriving Repr, DecidableEq

/-- `BinOp` from etable.rs. -/
inductive BinOp where
  | Add | Sub | Mul | Div | Min | Max | CopySign
  | UnsignedDiv | UnsignedRem | SignedDiv | SignedRem
deriving Repr, DecidableEq

/-- `StepInfo` from etable.rs; the decoded `Instruction` of the
`Unimplemented` variant is opaque and modelled as a number. -/
inductive StepInfo where
  | I32BinOp (cls : BinOp) (left right result : IVal)
  | Unimplemented (instr : Nat)
deriving Repr, DecidableEq

/-- `ETableEntry` from etable.rs. -/
structure ETableEntry where
  eid : Nat
  allocated_memory_pages : Nat
  step_info : StepInfo
deriving Repr, DecidableEq

/-- `ETable` from etable.rs: an append-only list of entries. -/
structure ETable where
  entries : List ETableEntry
deriving Repr, DecidableEq

/-- `ETable::push`: appends an entry whose `eid` is `entries().len() + 1`.
(The source converts to `u32` with `try_into().unwrap()`, which panics
rather than wraps, so plain Nat is faithful on all non-panicking runs.) -/
def ETable.push (t : ETable) (allocated_memory_pages : Nat) (step_info : StepInfo) : ETable :=
  { entries := t.entries ++
      [{ eid := t.entries.length + 1
         allocated_memory_pages := allocated_memory_pages
         step_info := step_info }] }

/-- An ETable built from the empty table by a sequence of `push` calls,
the only mutation the source offers. -/
def buildETable (ops : List (Nat × StepInfo)) : ETable :=
  ops.foldl (fun t op => t.push op.1 op.2) { entries := [] }

/-- `LocationType` from mtable.rs. -/
inductive LocationType where
  | Stack | Heap | Global
deriving Repr, DecidableEq

/-- `AccessType` from mtable.rs. -/
inductive AccessType where
  | Read | Write | Init
deriving Repr, DecidableEq

/-- `MemoryTableEntry` from mtable.rs. -/
structure MemoryTableEntry where
  eid : Nat
  emid : Nat
  addr : Nat
  ltype : LocationType
  atype : AccessType
  is_mutable : Bool
  value : TVal
deriving Repr, DecidableEq

/-- `MTable` from mtable.rs. -/
structure MTable where
  entries : List MemoryTableEntry
deriving Repr, DecidableEq

/-- One pass of the loops inside `mem_op_from_stack_only_step`: emit one
entry per `IVal` with the given access type, incrementing the threaded
`emid` counter after each entry (the source uses `checked_add`, which
panics rather than wraps on overflow). -/
def memAccessRun (eid : Nat) (atype : AccessType) (ivals : List IVal) (emid : Nat) :
    List MemoryTableEntry × Nat :=
  ivals.foldl
    (fun acc ival =>
      (acc.1 ++ [{ eid := eid, emid := acc.2, addr := ival.addr, ltype := .Stack,
                   atype := atype, is_mutable := true, value := ival.val }],
       acc.2 + 1))
    ([], emid)

/-- `mem_op_from_stack_only_step` from mtable.rs: Read entries for the
read values, then Write entries for the written values, all at
`LocationType::Stack`, threading `emid`. -/
def mem_op_from_stack_only_step (eid emid : Nat) (read_value write_value : List IVal) :
    List MemoryTableEntry × Nat :=
  let r := memAccessRun eid .Read read_value emid
  let w := memAccessRun eid .Write write_value r.2
  (r.1 ++ w.1, w.2)

/-- `memory_event_of_step` from mtable.rs.  Returns the emitted entries
together with the final value of the `emid` counter (the source takes
`&mut u32`). -/
def memory_event_of_step (event : ETableEntry) (emid : Nat) :
    List MemoryTableEntry × Nat :=
  match event.step_info with
  | .I32BinOp _ l r res => mem_op_from_stack_only_step event.eid emid [l, r] [res]
  | .Unimplemented _ => ([], emid)

/-- `ValueType` from imtable.rs. -/
inductive ValueType where
  | I64 | I32 | F32 | F64 | FuncRef | ExternRef
deriving Repr, DecidableEq

/-- `IMTableEntry` from imtable.rs. -/
structure IMTableEntry where
  ltype : LocationType
  is_mutable : Bool
  start_offset : Nat
  end_offset : Nat
  vtype : ValueType
  value : Nat
deriving Repr, DecidableEq

/-- `IMTable` from imtable.rs. -/
structure IMTable where
  entries : List IMTableEntry
deriving Repr, DecidableEq

/-- `IMTable::push` from imtable.rs: `is_global` selects
`LocationType::Global`, otherwise `LocationType::Heap`. -/
def IMTable.push (im : IMTable) (is_global is_mutable : Bool)
    (start_offset end_offset : Nat) (vtype : ValueType) (value : Nat) : IMTable :=
  { entries := im.entries ++
      [{ ltype := if is_global then .Global else .Heap
         is_mutable := is_mutable
         start_offset := start_offset
         end_offset := end_offset
         vtype := vtype
         value := value }] }

/-- `Tracer` from tracer/mod.rs. -/
structure Tracer where
  imtable : IMTable
  etable : ETable
deriving Repr, DecidableEq

/-- `Tracer::get_mtable` from tracer/mod.rs.  Note the source maps
`|entry| memory_event_of_step(entry, &mut 1)` over the events: the
`&mut 1` creates a fresh counter initialised to 1 for every single
event, so no counter value is carried from one event to the next. -/
def Tracer.get_mtable (tr : Tracer) : MTable :=
  { entries := (tr.etable.entries.map (fun e => (memory_event_of_step e 1).1)).flatten }

/-- `u64::from_le_bytes` on a byte source: little-endian recombination. -/
def u64_from_le_bytes (byte : Nat → Nat) : Nat :=
  byte 0 + 256 * (byte 1 + 256 * (byte 2 + 256 * (byte 3 +
    256 * (byte 4 + 256 * (byte 5 + 256 * (byte 6 + 256 * byte 7))))))

/-- `u32::MAX`. -/
def U32_MAX : Nat := 4294967295

/-- `Tracer::push_init_memory` from tracer/mod.rs.  The memory is
modelled by its byte contents `readByte` (address to byte), its initial
page count and its optional declared maximum page count.  For each of
the `pages * 8192` initial 8-byte words the source pushes one IMTable
entry with `start_offset = end_offset = i` holding the word read
little-endian at byte offset `i * 8`; it then pushes one terminator
entry at `pages * 8192` whose end offset is `maximum * 8192 - 1`
(computed in `u32`, hence the explicit modulus here: the subtraction
underflows only for a declared maximum of 0) or `u32::MAX` when no
maximum is declared. -/
def Tracer.push_init_memory (tr : Tracer) (pages : Nat) (maximum_pages : Option Nat)
    (readByte : Nat → Nat) : Tracer :=
  let im1 := (List.range (pages * 8192)).foldl
    (fun im i => im.push false true i i .I64 (u64_from_le_bytes (fun j => readByte (i * 8 + j))))
    tr.imtable
  let endOff : Nat :=
    match maximum_pages with
    | some limit => (limit * 8192 + U32_MAX) % (U32_MAX + 1)
    | none => U32_MAX
  { tr with imtable := im1.push false true (pages * 8192) endOff .I64 0 }

/-! ### Executor data model (engine/executor/mod.rs) -/

/-- One untyped 64-bit value-stack slot (`UntypedVal`). -/
abbrev Val := Nat

/-- The `Store` state as the executor threads it; opaque here, mutated
only by the external collaborators (trampolines, instruction executor). -/
abbrev Store := Nat

/-- An opaque error payload (`Error` in the source). -/
abbrev Error := Nat

/-- `CallFrame` from engine/executor/stack: the fields the driver reads.
The instruction pointer and `frame_ptr` are never consulted by the code
under study and are omitted; `results` is the head index of the
caller-side `RegisterSpan` where this frame's results are expected. -/
structure CallFrame where
  base_offset : Nat
  results : Nat
  inst : Nat
deriving Repr, DecidableEq

/-- The two-part `Stack`: value stack (index 0 is the bottom) and call
stack (head of the list is the top frame, so `head?` is `peek`). -/
structure Stack where
  values : List Val
  calls : List CallFrame
deriving Repr, DecidableEq

/-- Modelled from the spec: `Stack::reset` (stack module not under
src/): `len` of both parts becomes 0, capacity is irrelevant here. -/
def Stack.reset (_s : Stack) : Stack := { values := [], calls := [] }

/-- Modelled from the spec: `ValueStack::drop(n)` decreases `len` by
`n` without reallocation. -/
def vsDrop (vs : List Val) (n : Nat) : List Val := vs.take (vs.length - n)

/-- A host trampoline: takes the store and a mutable view over the top
`max_inout` slots and either fails or returns the mutated store and
view.  Mutating a view in place cannot change its length, which the
`preserves_len` field records. -/
structure Trampoline where
  call : Store → List Val → Except Error (Store × List Val)
  preserves_len : ∀ s b s2 b2, call s b = .ok (s2, b2) → b2.length = b.length

/-- `HostFuncCaller` from engine/executor/mod.rs. -/
inductive HostFuncCaller where
  | Root
  | Wasm (results : Nat) (inst : Nat)

/-- The result-copy loop of `dispatch_host_func`: `caller_sp` is the
cursor at `caller_offset`, `callee_sp` the cursor at the last
`max_inout` slots (both computed once, before the loop), and for each
output register `j < len_outputs` the slot `caller_offset +
results_head + j` is set to the live value at `callee_base + j`. -/
def copyResults (vs : List Val) (caller_offset results_head len_outputs max_inout : Nat) :
    List Val :=
  (List.range len_outputs).foldl
    (fun acc j => acc.set (caller_offset + results_head + j)
      (acc.getD (vs.length - max_inout + j) 0))
    vs

/-- `EngineExecutor::dispatch_host_func` from engine/executor/mod.rs.
At entry the top `max_inout = max(len_inputs, len_outputs)` slots are
the parameter/result buffer.  On trampoline failure the buffer is
dropped and the error returned.  On success with a `Root` caller the
buffer is left in place; with a `Wasm` caller the first `len_outputs`
buffer slots are copied to the caller frame's result span at the
caller's `base_offset` (the caller frame is `peek`ed, never popped
here) and then the buffer is dropped.  A missing caller frame hits an
`expect` panic, modelled as `none`. -/
def dispatchHostFunc (len_inputs len_outputs : Nat) (tramp : Trampoline)
    (caller : HostFuncCaller) (store : Store) (st : Stack) :
    Option (Stack × Except Error Store) :=
  let max_inout := max len_inputs len_outputs
  let split_pos := st.values.length - max_inout
  let buffer := st.values.drop split_pos
  match tramp.call store buffer with
  | .error e => some ({ st with values := vsDrop st.values max_inout }, .error e)
  | .ok (store2, buf2) =>
    let values2 := st.values.take split_pos ++ buf2
    match caller with
    | .Root => some ({ st with values := values2 }, .ok store2)
    | .Wasm results_head _ =>
      match st.calls.head? with
      | none => none
      | some caller_frame =>
        let values3 :=
          copyResults values2 caller_frame.base_offset results_head len_outputs max_inout
        some ({ st with values := vsDrop values3 max_inout }, .ok store2)

/-- `CallKind` from engine/executor/instrs. -/
inductive CallKind where
  | Normal | Tail
deriving Repr, DecidableEq

/-- `TaggedTrap` from engine/executor/trap.rs, as used by the driver. -/
inductive TaggedTrap where
  | Wasm (error : Error)
  | Host (host_func : Nat) (host_error : Error) (caller_results : Nat)
deriving Repr, DecidableEq

/-- `EngineExecutor::execute_host_func` from engine/executor/mod.rs:
dispatch with a Wasm caller; afterwards, for a tail call, pop the
caller frame; then wrap a dispatch error as `TaggedTrap::Host` when a
frame is still on the call stack and as `TaggedTrap::Wasm` otherwise. -/
def executeHostFunc (len_inputs len_outputs : Nat) (tramp : Trampoline) (func : Nat)
    (results : Nat) (inst : Nat) (call_kind : CallKind) (store : Store) (st : Stack) :
    Option (Stack × Except TaggedTrap Store) :=
  match dispatchHostFunc len_inputs len_outputs tramp (.Wasm results inst) store st with
  | none => none
  | some (st2, res) =>
    let st3 := if call_kind = CallKind.Tail then { st2 with calls := st2.calls.tail } else st2
    match res with
    | .ok store2 => some (st3, .ok store2)
    | .error e =>
      match st3.calls.head? with
      | some _ => some (st3, .error (.Host func e results))
      | none => some (st3, .error (.Wasm e))

/-- `WasmOutcome` from engine/executor/instrs. -/
inductive WasmOutcome where
  | Return
  | Call (results : Nat) (host_func : Nat) (call_kind : CallKind)
deriving Repr, DecidableEq

/-- The two shapes `StoreContext::resolve_func` can return. -/
inductive FuncEntityM where
  | Wasm (inst : Nat) (body : Nat)
  | Host (len_inputs len_outputs : Nat) (tramp : Trampoline)

/-- The external instruction executor (`execute_instrs`, not under
src/): runs the top frame, mutating the stack, and reports an error, a
root `Return`, or a pending host `Call`; `none` models divergence or a
panic inside it. -/
abbrev InstrExec := Store → Stack → Option (Stack × Except Error (Store × WasmOutcome))

/-- The pump loop of `EngineExecutor::execute_func`: run the
instruction executor; on `Return` stop; on `Call` peek the caller's
instance and run `execute_host_func`, then continue.  Errors of the
instruction executor pass through `?`; modelled from the spec, that
conversion wraps them as `TaggedTrap::Wasm` (trap.rs is not under
src/).  The `fuel` argument bounds the number of loop iterations, with
`none` for exhaustion; resolving the pending call to a Wasm function is
the `unreachable` panic, also `none`. -/
def pumpLoop (exec : InstrExec) (resolve : Nat → FuncEntityM) :
    Nat → Store → Stack → Option (Stack × Except TaggedTrap Store)
  | 0, _, _ => none
  | fuel + 1, store, st =>
    match exec store st with
    | none => none
    | some (st2, .error e) => some (st2, .error (.Wasm e))
    | some (st2, .ok (store2, .Return)) => some (st2, .ok store2)
    | some (st2, .ok (store2, .Call results func call_kind)) =>
      match st2.calls.head? with
      | none => none
      | some frame =>
        match resolve func with
        | .Wasm _ _ => none
        | .Host len_inputs len_outputs tramp =>
          match executeHostFunc len_inputs len_outputs tramp func results frame.inst
              call_kind store2 st2 with
          | none => none
          | some (st3, .error t) => some (st3, .error t)
          | some (st3, .ok store3) => pumpLoop exec resolve fuel store3 st3

/-- `EngineExecutor::execute_func`: builds the instance cache from the
top frame (an `expect`, hence `none` on an empty call stack) and enters
the pump loop. -/
def executeFunc (exec : InstrExec) (resolve : Nat → FuncEntityM) (fuel : Nat)
    (store : Store) (st : Stack) : Option (Stack × Except TaggedTrap Store) :=
  match st.calls.head? with
  | none => none
  | some _ => pumpLoop exec resolve fuel store st

/-- `EngineExecutor::write_results_back`: hands the results sink a
read-only view of the first `len_results` value-stack slots; the stack
itself is not modified. -/
def writeResultsBack (st : Stack) (len_results : Nat) : List Val × Stack :=
  (st.values.take len_results, st)

/-- The error used for value-stack or call-stack exhaustion. -/
def stackOverflowError : Error := 0

/-- The engine-level resources and external collaborators a root call
consumes: `resolve` is `StoreContext::resolve_func`, `codeGet` is
`CodeMap::get` (may charge fuel from the store, may fail), `exec` and
`execT` are the untraced and traced instruction executors, and the
limits come from `StackLimits`.  `fuel` bounds the pump loop. -/
structure Env where
  resolve : Nat → FuncEntityM
  codeGet : Store → Nat → Except Error (Store × Nat)
  exec : InstrExec
  execT : Store → Stack → Tracer → Option (Stack × Tracer × Except Error (Store × WasmOutcome))
  maxValueLen : Nat
  maxCallDepth : Nat
  fuel : Nat

/-- Modelled from the spec: `ValueStack::reserve(n)` fails with
`StackOverflow` when growth would exceed the configured maximum (stack
module not under src/). -/
def reserveOk (env : Env) (len n : Nat) : Except Error Unit :=
  if len + n ≤ env.maxValueLen then .ok () else .error stackOverflowError

/-- Modelled from the spec: `ValueStack::fill_at(base, params)` writes
the parameter values into the first `len(params)` slots starting at
`base` (stack module not under src/). -/
def fillAt (vs : List Val) (base : Nat) (params : List Val) : List Val :=
  (List.range params.length).foldl (fun acc j => acc.set (base + j) (params.getD j 0)) vs

/-- `EngineExecutor::execute_root_func` from engine/executor/mod.rs.
First `self.stack.reset()`.  For a Wasm callee: reserve and zero-extend
`len_results` result slots, fetch the compiled body (may charge fuel /
fail), allocate the callee frame (zero-filled `frame_size` slots whose
base is the pre-allocation length), fill the parameters at the base,
push a `CallFrame` with result span 0, and run the pump; for a host
callee: reserve and zero-extend `max(len_params, len_results)` slots,
write the parameters into the leading slots, and dispatch with a `Root`
caller.  Finally `write_results_back`.  Errors reaching `?` are wrapped
as `TaggedTrap::Wasm` (modelled from the spec; trap.rs not under src/). -/
def executeRootFunc (env : Env) (func : Nat) (params : List Val) (len_results : Nat)
    (store : Store) (stack0 : Stack) :
    Option (Stack × Except TaggedTrap (Store × List Val)) :=
  let st := stack0.reset
  match env.resolve func with
  | .Wasm inst body =>
    match reserveOk env st.values.length len_results with
    | .error e => some (st, .error (.Wasm e))
    | .ok _ =>
      let st1 : Stack := { st with values := st.values ++ List.replicate len_results 0 }
      match env.codeGet store body with
      | .error e => some (st1, .error (.Wasm e))
      | .ok (store2, frame_size) =>
        match reserveOk env st1.values.length frame_size with
        | .error e => some (st1, .error (.Wasm e))
        | .ok _ =>
          let base := st1.values.length
          let st2 : Stack := { st1 with values := st1.values ++ List.replicate frame_size 0 }
          let st3 : Stack := { st2 with values := fillAt st2.values base params }
          if st3.calls.length + 1 ≤ env.maxCallDepth then
            let st4 : Stack :=
              { st3 with calls := { base_offset := base, results := 0, inst := inst } :: st3.calls }
            match executeFunc env.exec env.resolve env.fuel store2 st4 with
            | none => none
            | some (st5, .error t) => some (st5, .error t)
            | some (st5, .ok store3) =>
              let wr := writeResultsBack st5 len_results
              some (wr.2, .ok (store3, wr.1))
          else some (st3, .error (.Wasm stackOverflowError))
  | .Host len_inputs len_outputs tramp =>
    let max_inout := max len_inputs len_outputs
    match reserveOk env st.values.length max_inout with
    | .error e => some (st, .error (.Wasm e))
    | .ok _ =>
      let st1 : Stack := { st with values := st.values ++ List.replicate max_inout 0 }
      let st2 : Stack := { st1 with values := fillAt st1.values 0 (params.take len_inputs) }
      match dispatchHostFunc len_inputs len_outputs tramp .Root store st2 with
      | none => none
      | some (st3, .error e) => some (st3, .error (.Wasm e))
      | some (st3, .ok store2) =>
        let wr := writeResultsBack st3 len_results
        some (wr.2, .ok (store2, wr.1))

/-- The traced pump loop of `EngineExecutor::execute_func_with_trace`:
identical to `pumpLoop` except that the instruction executor threads
the tracer; host calls are dispatched untraced, exactly as in the
source. -/
def pumpLoopT (execT : Store → Stack → Tracer →
      Option (Stack × Tracer × Except Error (Store × WasmOutcome)))
    (resolve : Nat → FuncEntityM) :
    Nat → Store → Stack → Tracer → Option (Stack × Tracer × Except TaggedTrap Store)
  | 0, _, _, _ => none
  | fuel + 1, store, st, tr =>
    match execT store st tr with
    | none => none
    | some (st2, tr2, .error e) => some (st2, tr2, .error (.Wasm e))
    | some (st2, tr2, .ok (store2, .Return)) => some (st2, tr2, .ok store2)
    | some (st2, tr2, .ok (store2, .Call results func call_kind)) =>
      match st2.calls.head? with
      | none => none
      | some frame =>
        match resolve func with
        | .Wasm _ _ => none
        | .Host len_inputs len_outputs tramp =>
          match executeHostFunc len_inputs len_outputs tramp func results frame.inst
              call_kind store2 st2 with
          | none => none
          | some (st3, .error t) => some (st3, tr2, .error t)
          | some (st3, .ok store3) => pumpLoopT execT resolve fuel store3 st3 tr2

/-- `EngineExecutor::execute_func_with_trace`. -/
def executeFuncT (execT : Store → Stack → Tracer →
      Option (Stack × Tracer × Except Error (Store × WasmOutcome)))
    (resolve : Nat → FuncEntityM) (fuel : Nat) (store : Store) (st : Stack) (tr : Tracer) :
    Option (Stack × Tracer × Except TaggedTrap Store) :=
  match st.calls.head? with
  | none => none
  | some _ => pumpLoopT execT resolve fuel store st tr

/-- `EngineExecutor::execute_root_func_with_trace` from
engine/executor/mod.rs: same sequence as `execute_root_func` with the
traced pump; the host-callee path does not trace (the source carries a
TODO there). -/
def executeRootFuncWithTrace (env : Env) (func : Nat) (params : List Val)
    (len_results : Nat) (store : Store) (tr : Tracer) (stack0 : Stack) :
    Option (Stack × Tracer × Except TaggedTrap (Store × List Val)) :=
  let st := stack0.reset
  match env.resolve func with
  | .Wasm inst body =>
    match reserveOk env st.values.length len_results with
    | .error e => some (st, tr, .error (.Wasm e))
    | .ok _ =>
      let st1 : Stack := { st with values := st.values ++ List.replicate len_results 0 }
      match env.codeGet store body with
      | .error e => some (st1, tr, .error (.Wasm e))
      | .ok (store2, frame_size) =>
        match reserveOk env st1.values.length frame_size with
        | .error e => some (st1, tr, .error (.Wasm e))
        | .ok _ =>
          let base := st1.values.length
          let st2 : Stack := { st1 with values := st1.values ++ List.replicate frame_size 0 }
          let st3 : Stack := { st2 with values := fillAt st2.values base params }
          if st3.calls.length + 1 ≤ env.maxCallDepth then
            let st4 : Stack :=
              { st3 with calls := { base_offset := base, results := 0, inst := inst } :: st3.calls }
            match executeFuncT env.execT env.resolve env.fuel store2 st4 tr with
            | none => none
            | some (st5, tr5, .error t) => some (st5, tr5, .error t)
            | some (st5, tr5, .ok store3) =>
              let wr := writeResultsBack st5 len_results
              some (wr.2, tr5, .ok (store3, wr.1))
          else some (st3, tr, .error (.Wasm stackOverflowError))
  | .Host len_inputs len_outputs tramp =>
    let max_inout := max len_inputs len_outputs
    match reserveOk env st.values.length max_inout with
    | .error e => some (st, tr, .error (.Wasm e))
    | .ok _ =>
      let st1 : Stack := { st with values := st.values ++ List.replicate max_inout 0 }
      let st2 : Stack := { st1 with values := fillAt st1.values 0 (params.take len_inputs) }
      match dispatchHostFunc len_inputs len_outputs tramp .Root store st2 with
      | none => none
      | some (st3, .error e) => some (st3, tr, .error (.Wasm e))
      | some (st3, .ok store2) =>
        let wr := writeResultsBack st3 len_results
        some (wr.2, tr, .ok (store2, wr.1))

/-- `ResumableInvocation` as assembled by
`EngineInner::execute_func_resumable` (fields per the spec; the struct
itself lives outside src/). -/
structure ResumableInvocation where
  func : Nat
  host_func : Nat
  host_error : Error
  caller_results : Nat
  stack : Stack
deriving Repr, DecidableEq

/-- `ResumableCallBase` from engine (outside src/, shape per the spec). -/
inductive ResumableCallBase (α : Type) where
  | Finished (results : α)
  | Resumable (inv : ResumableInvocation)
deriving Repr, DecidableEq

/-- `EngineInner::execute_func_resumable` from engine/executor/mod.rs:
run the root call on a reused stack; `Ok` recycles the stack and
returns `Finished`; a `TaggedTrap::Wasm` recycles the stack and returns
the plain error; a `TaggedTrap::Host` moves the stack into a new
`ResumableInvocation`.  The boolean records whether the stack was
recycled to the pool before returning. -/
def executeFuncResumableM (env : Env) (func : Nat) (params : List Val) (len_results : Nat)
    (store : Store) (stack0 : Stack) :
    Option (Except Error (ResumableCallBase (Store × List Val)) × Bool) :=
  match executeRootFunc env func params len_results store stack0 with
  | none => none
  | some (_, .ok res) => some (.ok (.Finished res), true)
  | some (_, .error (.Wasm e)) => some (.error e, true)
  | some (st2, .error (.Host hf he cr)) =>
    some (.ok (.Resumable { func := func, host_func := hf, host_error := he,
                            caller_results := cr, stack := st2 }), false)

/-- The write phase of `EngineExecutor::resume_func`: a cursor at the
peeked caller frame's `base_offset`, then each supplied value is
written to the registers of the `caller_results` span in order. -/
def writeParamsAt (vs : List Val) (base results_head : Nat) (params : List Val) : List Val :=
  (List.range params.length).foldl
    (fun acc j => acc.set (base + results_head + j) (params.getD j 0)) vs

/-- `resume_func`'s caller lookup and register writes; `none` is the
`expect` panic on a missing caller frame. -/
def resumeWrite (st : Stack) (caller_results : Nat) (params : List Val) : Option Stack :=
  match st.calls.head? with
  | none => none
  | some caller =>
    some { st with values := writeParamsAt st.values caller.base_offset caller_results params }

/-- `EngineExecutor::resume_func` from engine/executor/mod.rs: write
the supplied values into the parked caller's result registers, re-enter
the pump loop, then `write_results_back`. -/
def resumeFunc (exec : InstrExec) (resolve : Nat → FuncEntityM) (fuel : Nat)
    (st : Stack) (store : Store) (caller_results : Nat) (params : List Val)
    (len_results : Nat) : Option (Stack × Except TaggedTrap (Store × List Val)) :=
  match resumeWrite st caller_results params with
  | none => none
  | some st2 =>
    match executeFunc exec resolve fuel store st2 with
    | none => none
    | some (st3, .error t) => some (st3, .error t)
    | some (st3, .ok store2) =>
      let wr := writeResultsBack st3 len_results
      some (wr.2, .ok (store2, wr.1))

/-- The continuation shared by the success path of a host dispatch and
by `resume_func` after its write phase: pump, then write results back.
Used to compare a resumed run against the hypothetical run in which the
host call had succeeded directly. -/
def pumpThenResults (exec : InstrExec) (resolve : Nat → FuncEntityM) (fuel : Nat)
    (st : Stack) (store : Store) (len_results : Nat) :
    Option (Stack × Except TaggedTrap (Store × List Val)) :=
  match executeFunc exec resolve fuel store st with
  | none => none
  | some (st3, .error t) => some (st3, .error t)
  | some (st3, .ok store2) =>
    let wr := writeResultsBack st3 len_results
    some (wr.2, .ok (store2, wr.1))

/-! ### Concrete collaborators used to instantiate the theorems -/

/-- A trampoline that succeeds, overwriting its whole buffer with `v`
and leaving the store unchanged. -/
def trConst (v : Val) : Trampoline where
  call := fun s b => .ok (s, List.replicate b.length v)
  preserves_len := by
    intro s b s2 b2 h
    cases h
    exact List.length_replicate ..

/-- A trampoline that always fails with the host error `e`. -/
def trFail (e : Error) : Trampoline where
  call := fun _ _ => .error e
  preserves_len := by
    intro s b s2 b2 h
    exact Except.noConfusion h

/-- A traced instruction executor that is never consulted. -/
def execTNone : Store → Stack → Tracer → Option (Stack × Tracer × Except Error (Store × WasmOutcome)) :=
  fun _ _ _ => none

/-- A function table with one Wasm function (handle 1) and one host
function (handle 2) of signature `() -> i64` backed by `tramp`. -/
def resolveWith (tramp : Trampoline) : Nat → FuncEntityM :=
  fun f => if f = 2 then .Host 0 1 tramp else .Wasm 0 0

/-- An instruction executor driving the tail-call scenario: on a fresh
root frame (marker slot 2 still zero) it pushes a second Wasm frame at
base 2, marks slot 2, materialises the one-slot host buffer and
requests a tail call to host function 2; on any later entry it copies
the root frame's result register (slot 1) to the root result span
(slot 0) and returns. -/
def execTailCex : InstrExec := fun store st =>
  if st.calls.length == 1 && st.values.getD 2 0 == 0 then
    some ({ values := (st.values.set 2 1) ++ [55],
            calls := { base_offset := 2, results := 0, inst := 0 } :: st.calls },
          .ok (store, .Call 0 2 .Tail))
  else
    some ({ st with values := st.values.set 0 (st.values.getD 1 0) },
          .ok (store, .Return))

/-- The tail-call scenario environment, parameterised by the host
trampoline installed as function 2. -/
def envTail (tramp : Trampoline) : Env where
  resolve := resolveWith tramp
  codeGet := fun s _ => .ok (s, 2)
  exec := execTailCex
  execT := execTNone
  maxValueLen := 100
  maxCallDepth := 10
  fuel := 3

/-- An instruction executor driving the normal-call scenario: on a
fresh root frame (marker slot 2 still zero) it marks slot 2,
materialises the one-slot host buffer and requests a normal call to
host function 2; on any later entry it copies the root frame's result
register (slot 1) to the root result span (slot 0) and returns. -/
def execNormalCex : InstrExec := fun store st =>
  if st.values.getD 2 0 == 0 then
    some ({ st with values := (st.values.set 2 1) ++ [55] },
          .ok (store, .Call 0 2 .Normal))
  else
    some ({ st with values := st.values.set 0 (st.values.getD 1 0) },
          .ok (store, .Return))

/-- The normal-call scenario environment, parameterised by the host
trampoline installed as function 2. -/
def envNormal (tramp : Trampoline) : Env where
  resolve := resolveWith tramp
  codeGet := fun s _ => .ok (s, 2)
  exec := execNormalCex
  execT := execTNone
  maxValueLen := 100
  maxCallDepth := 10
  fuel := 3

/-- An environment whose only reachable function is the host function 2
itself (used for root host calls). -/
def envRootHost (tramp : Trampoline) : Env where
  resolve := fun _ => .Host 0 1 tramp
  codeGet := fun s _ => .ok (s, 2)
  exec := fun _ _ => none
  execT := execTNone
  maxValueLen := 100
  maxCallDepth := 10
  fuel := 3

/-- A concrete mid-execution stack with a tail-calling frame at base
offset 2 above a root frame at base offset 0, and a one-slot host
buffer on top. -/
def stTail5 : Stack :=
  { values := [10, 11, 12, 13, 14],
    calls := [{ base_offset := 2, results := 0, inst := 0 },
              { base_offset := 0, results := 0, inst := 0 }] }

/-- A two-event ETable of `i32.add` steps, used to exercise
`get_mtable` across an event boundary. -/
def etabTwo : ETable :=
  { entries := [{ eid := 1, allocated_memory_pages := 0,
                  step_info := .I32BinOp .Add ⟨5, 0⟩ ⟨6, 1⟩ ⟨11, 2⟩ },
                { eid := 2, allocated_memory_pages := 0,
                  step_info := .I32BinOp .Add ⟨7, 3⟩ ⟨8, 4⟩ ⟨15, 5⟩ }] }

/-- A tracer holding `etabTwo` and an empty initial-memory table. -/
def tracerTwo : Tracer := { imtable := { entries := [] }, etable := etabTwo }

/-! ### Helper lemmas about sequential register writes -/

lemma foldl_set_length (l : List Nat) (f : Nat → Nat) (g : List Val → Nat → Val)
    (vs : List Val) :
    (l.foldl (fun acc j => acc.set (f j) (g acc j)) vs).length = vs.length := by
  induction l generalizing vs with
  | nil => rfl
  | cons a t ih => rw [List.foldl_cons, ih, List.length_set]

lemma foldl_set_getElem_high (l : List Nat) (f : Nat → Nat) (g : List Val → Nat → Val)
    (K p : Nat) (hp : K ≤ p) :
    ∀ vs : List Val, (∀ j ∈ l, f j < K) →
      (l.foldl (fun acc j => acc.set (f j) (g acc j)) vs)[p]? = vs[p]? := by
  induction l with
  | nil => intro vs _; rfl
  | cons a t ih =>
    intro vs hf
    rw [List.foldl_cons, ih _ (fun j hj => hf j (List.mem_cons_of_mem _ hj))]
    exact List.getElem?_set_ne
      (Nat.ne_of_lt (Nat.lt_of_lt_of_le (hf a (List.mem_cons_self a t)) hp))

lemma take_foldl_set (l : List Nat) (f : Nat → Nat) (c : Nat → Val) (K : Nat) :
    ∀ vs : List Val,
      (l.foldl (fun acc j => acc.set (f j) (c j)) vs).take K
        = l.foldl (fun acc j => acc.set (f j) (c j)) (vs.take K) := by
  induction l with
  | nil => intro _; rfl
  | cons a t ih =>
    intro vs
    rw [List.foldl_cons, List.foldl_cons, ih, List.set_take]

/-! ### Theorems about the tracer -/

lemma push_preserves_eid_invariant (t : ETable)
    (h : ∀ i en, t.entries[i]? = some en → en.eid = i + 1)
    (p : Nat) (si : StepInfo) :
    ∀ i en, ((t.push p si).entries)[i]? = some en → en.eid = i + 1 := by
  intro i en hi
  simp only [ETable.push] at hi
  rcases Nat.lt_or_ge i t.entries.length with hlt | hge
  · rw [List.getElem?_append_left hlt] at hi
    exact h i en hi
  · rw [List.getElem?_append_right hge] at hi
    rcases Nat.eq_or_lt_of_le hge with heq | hgt
    · have hieq : i = t.entries.length := heq.symm
      rw [← heq, Nat.sub_self] at hi
      simp only [List.getElem?_cons_zero, Option.some.injEq] at hi
      rw [← hi]
      simp [hieq]
    · rw [List.getElem?_eq_none (by simp; omega)] at hi
      exact Option.noConfusion hi

lemma buildETable_eid_invariant (ops : List (Nat × StepInfo)) :
    ∀ t : ETable, (∀ i en, t.entries[i]? = some en → en.eid = i + 1) →
      ∀ i en, (ops.foldl (fun t op => t.push op.1 op.2) t).entries[i]? = some en →
        en.eid = i + 1 := by
  induction ops with
  | nil => intro t h; exact h
  | cons a rest ih =>
    intro t h
    exact ih _ (push_preserves_eid_invariant t h a.1 a.2)

/-- Claim C6: for every ETable built from the empty table by a sequence
of `push` calls, the entry at (0-based) index `i` has `eid = i + 1`,
because `push` assigns `eid = entries().len() + 1` and appending is the
only mutation; hence consecutive `eid`s increase by exactly 1 starting
at 1. -/
theorem c6_eid_consecutive (ops : List (Nat × StepInfo)) (i : Nat) (en : ETableEntry)
    (h : (buildETable ops).entries[i]? = some en) : en.eid = i + 1 := by
  refine buildETable_eid_invariant ops { entries := [] } ?_ i en h
  intro j en' hj
  simp at hj

theorem c6_eid_consecutive_witness :
    (buildETable [(0, .Unimplemented 0), (7, .Unimplemented 1)]).entries[1]?
        = some { eid := 2, allocated_memory_pages := 7, step_info := .Unimplemented 1 }
    ∧ ({ eid := 2, allocated_memory_pages := 7,
         step_info := .Unimplemented 1 } : ETableEntry).eid = 1 + 1 :=
  ⟨rfl, c6_eid_consecutive [(0, .Unimplemented 0), (7, .Unimplemented 1)] 1 _ rfl⟩

lemma emid_map_block (e : ETableEntry) :
    (memory_event_of_step e 1).1.map (fun m => m.emid)
      = List.range' 1 (memory_event_of_step e 1).1.length := by
  rcases e with ⟨eid, amp, si⟩
  cases si with
  | I32BinOp cls l r res => rfl
  | Unimplemented i => rfl

/-- Claim C1 (amended): `get_mtable` iterates the events in order but
hands `memory_event_of_step` a fresh `emid` counter (`&mut 1`) for
every event, so the `emid` column of the produced MTable is the
concatenation of per-event runs each starting again at 1; no counter
value crosses an event boundary. -/
theorem c1_emid_restarts_per_event (tr : Tracer) :
    tr.get_mtable.entries.map (fun m => m.emid)
      = (tr.etable.entries.map
          (fun e => List.range' 1 (memory_event_of_step e 1).1.length)).flatten := by
  show ((tr.etable.entries.map (fun e => (memory_event_of_step e 1).1)).flatten).map
      (fun m => m.emid) = _
  rw [List.map_flatten, List.map_map]
  congr 1
  exact List.map_congr_left (fun e _ => emid_map_block e)

/-- Claim C1 (counterexample): on a two-event ETable of `I32BinOp`
steps, the `emid` column produced by `get_mtable` is `[1,2,3,1,2,3]`:
the first memory entry of event 2 carries `emid = 1` again instead of
continuing at 4, so the `emid` values do not form one monotonically
increasing sequence spanning event boundaries. -/
theorem c1_threaded_emid_counterexample :
    tracerTwo.get_mtable.entries.map (fun m => m.emid) = [1, 2, 3, 1, 2, 3]
    ∧ (tracerTwo.get_mtable.entries.map (fun m => m.emid))[3]? = some 1
    ∧ ¬ List.Chain' (fun a b => a < b)
        (tracerTwo.get_mtable.entries.map (fun m => m.emid)) := by
  refine ⟨rfl, rfl, ?_⟩
  intro h
  have hlist : tracerTwo.get_mtable.entries.map (fun m => m.emid) = [1, 2, 3, 1, 2, 3] := rfl
  rw [hlist] at h
  simp only [List.chain'_cons] at h
  exact absurd h.2.2.1 (by omega)

/-- Claim C7: `get_mtable` emits, for each ETable entry, exactly the
block `memory_event_of_step entry 1`; for an `I32BinOp` entry that
block is exactly three records carrying the entry's `eid` — a Read for
`left`, a Read for `right`, then a Write for `result`, all at
`LocationType::Stack` with three consecutive `emid` values — and for an
`Unimplemented` entry the block is empty. -/
theorem c7_i32binop_memory_events (tr : Tracer) (e : ETableEntry) :
    tr.get_mtable.entries
        = (tr.etable.entries.map (fun en => (memory_event_of_step en 1).1)).flatten
    ∧ (∀ cls l r res, e.step_info = .I32BinOp cls l r res →
        (memory_event_of_step e 1).1 =
          [{ eid := e.eid, emid := 1, addr := l.addr, ltype := .Stack, atype := .Read,
             is_mutable := true, value := l.val },
           { eid := e.eid, emid := 2, addr := r.addr, ltype := .Stack, atype := .Read,
             is_mutable := true, value := r.val },
           { eid := e.eid, emid := 3, addr := res.addr, ltype := .Stack, atype := .Write,
             is_mutable := true, value := res.val }])
    ∧ (∀ instr, e.step_info = .Unimplemented instr → (memory_event_of_step e 1).1 = []) := by
  refine ⟨rfl, ?_, ?_⟩
  · intro cls l r res hsi
    simp [memory_event_of_step, hsi, mem_op_from_stack_only_step, memAccessRun]
  · intro instr hsi
    simp [memory_event_of_step, hsi]

theorem c7_i32binop_memory_events_witness :
    ({ eid := 9, allocated_memory_pages := 0,
       step_info := .I32BinOp .Add ⟨5, 0⟩ ⟨6, 1⟩ ⟨11, 2⟩ } : ETableEntry).step_info
        = .I32BinOp .Add ⟨5, 0⟩ ⟨6, 1⟩ ⟨11, 2⟩
    ∧ (memory_event_of_step
        { eid := 9, allocated_memory_pages := 0,
          step_info := .I32BinOp .Add ⟨5, 0⟩ ⟨6, 1⟩ ⟨11, 2⟩ } 1).1 =
        [{ eid := 9, emid := 1, addr := 0, ltype := .Stack, atype := .Read,
           is_mutable := true, value := 5 },
         { eid := 9, emid := 2, addr := 1, ltype := .Stack, atype := .Read,
           is_mutable := true, value := 6 },
         { eid := 9, emid := 3, addr := 2, ltype := .Stack, atype := .Write,
           is_mutable := true, value := 11 }]
    ∧ ({ eid := 4, allocated_memory_pages := 0,
         step_info := .Unimplemented 3 } : ETableEntry).step_info = .Unimplemented 3
    ∧ (memory_event_of_step
        { eid := 4, allocated_memory_pages := 0, step_info := .Unimplemented 3 } 1).1 = [] :=
  ⟨rfl,
   (c7_i32binop_memory_events { imtable := { entries := [] }, etable := { entries := [] } }
      _).2.1 .Add ⟨5, 0⟩ ⟨6, 1⟩ ⟨11, 2⟩ rfl,
   rfl,
   (c7_i32binop_memory_events { imtable := { entries := [] }, etable := { entries := [] } }
      _).2.2 3 rfl⟩

lemma imtable_foldl_push (l : List Nat) (f : Nat → Nat) :
    ∀ im : IMTable,
      (l.foldl (fun im i => im.push false true i i .I64 (f i)) im).entries
        = im.entries ++ l.map (fun i =>
            { ltype := .Heap, is_mutable := true, start_offset := i, end_offset := i,
              vtype := .I64, value := f i }) := by
  induction l with
  | nil => intro im; simp
  | cons a t ih =>
    intro im
    rw [List.foldl_cons, ih]
    simp [IMTable.push, List.append_assoc]

/-- Claim C9: for a memory with `pages` initial 64 KiB pages,
`push_init_memory` appends exactly `pages * 8192` word entries — the
`i`-th having `start_offset = end_offset = i` and the little-endian
64-bit value of the `i`-th 8-byte word — followed by exactly one
terminator entry with `start_offset = pages * 8192`, value 0, and
`end_offset = maximum_pages * 8192 - 1` when a maximum is declared
(here stated for `1 ≤ maximum ≤ 65536`, the range in which the `u32`
arithmetic of the source neither underflows nor overflows) or
`u32::MAX` when the memory has no declared maximum.  The hypothesis
`pages ≤ 65536` marks the Wasm page-count range on which the Nat model
agrees with the source's `u32` arithmetic. -/
theorem c9_push_init_memory_entries (tr : Tracer) (pages : Nat)
    (maximum_pages : Option Nat) (readByte : Nat → Nat) (hp : pages ≤ 65536) :
    ((tr.push_init_memory pages maximum_pages readByte).imtable.entries.length
        = tr.imtable.entries.length + pages * 8192 + 1)
    ∧ (∀ i, i < pages * 8192 →
        (tr.push_init_memory pages maximum_pages readByte).imtable.entries[tr.imtable.entries.length + i]?
          = some { ltype := .Heap, is_mutable := true, start_offset := i, end_offset := i,
                   vtype := .I64,
                   value := u64_from_le_bytes (fun j => readByte (i * 8 + j)) })
    ∧ (maximum_pages = none →
        (tr.push_init_memory pages maximum_pages readByte).imtable.entries[tr.imtable.entries.length + pages * 8192]?
          = some { ltype := .Heap, is_mutable := true, start_offset := pages * 8192,
                   end_offset := U32_MAX, vtype := .I64, value := 0 })
    ∧ (∀ m, maximum_pages = some m → 1 ≤ m → m ≤ 65536 →
        (tr.push_init_memory pages maximum_pages readByte).imtable.entries[tr.imtable.entries.length + pages * 8192]?
          = some { ltype := .Heap, is_mutable := true, start_offset := pages * 8192,
                   end_offset := m * 8192 - 1, vtype := .I64, value := 0 }) := by
  have hentries : (tr.push_init_memory pages maximum_pages readByte).imtable.entries
      = tr.imtable.entries
        ++ (List.range (pages * 8192)).map (fun i =>
             { ltype := .Heap, is_mutable := true, start_offset := i, end_offset := i,
               vtype := .I64,
               value := u64_from_le_bytes (fun j => readByte (i * 8 + j)) })
        ++ [{ ltype := .Heap, is_mutable := true, start_offset := pages * 8192,
              end_offset := match maximum_pages with
                            | some limit => (limit * 8192 + U32_MAX) % (U32_MAX + 1)
                            | none => U32_MAX
              vtype := .I64, value := 0 }] := by
    show ((((List.range (pages * 8192)).foldl
          (fun im i => im.push false true i i .I64
            (u64_from_le_bytes (fun j => readByte (i * 8 + j)))) tr.imtable).push
          false true (pages * 8192)
          (match maximum_pages with
           | some limit => (limit * 8192 + U32_MAX) % (U32_MAX + 1)
           | none => U32_MAX) .I64 0)).entries = _
    rw [IMTable.push, imtable_foldl_push]
    simp
  refine ⟨?_, ?_, ?_, ?_⟩
  · rw [hentries]; simp; omega
  · intro i hi
    rw [hentries, List.append_assoc,
        List.getElem?_append_right (Nat.le_add_right _ _)]
    rw [Nat.add_sub_cancel_left]
    rw [List.getElem?_append_left (by simpa using hi)]
    rw [List.getElem?_map, List.getElem?_range hi]
    rfl
  · intro hnone
    subst hnone
    rw [hentries, List.append_assoc,
        List.getElem?_append_right (Nat.le_add_right _ _)]
    rw [Nat.add_sub_cancel_left]
    rw [List.getElem?_append_right (by simp)]
    simp
  · intro m hsome h1 h65536
    subst hsome
    rw [hentries, List.append_assoc,
        List.getElem?_append_right (Nat.le_add_right _ _)]
    rw [Nat.add_sub_cancel_left]
    rw [List.getElem?_append_right (by simp)]
    simp only [List.length_map, List.length_range, Nat.sub_self]
    have hmod : (m * 8192 + U32_MAX) % (U32_MAX + 1) = m * 8192 - 1 := by
      simp only [U32_MAX]
      omega
    simp [hmod]

theorem c9_push_init_memory_entries_witness :
    (1 ≤ 65536
      ∧ (1 : Nat) < 1 * 8192
      ∧ (some 2 : Option Nat) = some 2 ∧ 1 ≤ 2 ∧ 2 ≤ 65536)
    ∧ ((Tracer.push_init_memory { imtable := { entries := [] }, etable := { entries := [] } }
          1 (some 2) (fun _ => 3)).imtable.entries[(0 : Nat) + 1]?
        = some { ltype := .Heap, is_mutable := true, start_offset := 1, end_offset := 1,
                 vtype := .I64, value := u64_from_le_bytes (fun j => (fun _ => 3) (1 * 8 + j)) })
    ∧ ((Tracer.push_init_memory { imtable := { entries := [] }, etable := { entries := [] } }
          1 (some 2) (fun _ => 3)).imtable.entries[(0 : Nat) + 1 * 8192]?
        = some { ltype := .Heap, is_mutable := true, start_offset := 1 * 8192,
                 end_offset := 2 * 8192 - 1, vtype := .I64, value := 0 }) :=
  ⟨⟨by decide, by decide, rfl, by decide, by decide⟩,
   (c9_push_init_memory_entries
      { imtable := { entries := [] }, etable := { entries := [] } }
      1 (some 2) (fun _ => 3) (by decide)).2.1 1 (by decide),
   (c9_push_init_memory_entries
      { imtable := { entries := [] }, etable := { entries := [] } }
      1 (some 2) (fun _ => 3) (by decide)).2.2.2 2 rfl (by decide) (by decide)⟩

/-! ### Theorems about the executor -/

/-- Claim C10: `execute_root_func` and `execute_root_func_with_trace`
both call `stack.reset()` before any other stack operation, so for any
two runs with equal store state, function, parameters and results
arity, the outcome and returned results are identical regardless of
what contents the recycled stack carried over from earlier
invocations. -/
theorem c10_reset_makes_runs_stack_independent (env : Env) (func : Nat) (params : List Val)
    (len_results : Nat) (store : Store) (tr : Tracer) (s1 s2 : Stack) :
    executeRootFunc env func params len_results store s1
        = executeRootFunc env func params len_results store s2
    ∧ executeRootFuncWithTrace env func params len_results store tr s1
        = executeRootFuncWithTrace env func params len_results store tr s2 :=
  ⟨rfl, rfl⟩

/-- Claim C8 (evaluating the code at the failing input): a successful
root call to a host function with 0 parameters and 1 result ends with
the value stack still holding the `max_inout = 1` buffer slot after
`write_results_back` returns — length 1, not 0 — because
`write_results_back` only hands the results sink a read-only view of
the first `len_results` slots and never shrinks the stack.  The
source's own doc comment on `write_results_back` states "The value
stack is empty after this operation". -/
theorem c8_stack_not_empty_after_write_results_back :
    executeRootFunc (envRootHost (trConst 7)) 2 [] 1 0
        { values := [9, 9, 9], calls := [{ base_offset := 5, results := 5, inst := 5 }] }
      = some ({ values := [7], calls := [] }, .ok (0, [7]))
    ∧ (∀ st n, writeResultsBack st n = (st.values.take n, st))
    ∧ ({ values := [7], calls := [] } : Stack).values.length ≠ 0 :=
  ⟨rfl, fun _ _ => rfl, by decide⟩

/-- Claim C3: a host-trampoline error is wrapped by
`execute_host_func` as `TaggedTrap::Host` iff a frame still exists on
the call stack after the tail-call pop (if any) and as
`TaggedTrap::Wasm` otherwise; and in `execute_func_resumable` a `Wasm`
trap always yields a plain error with the stack recycled immediately, a
`Host` trap yields `Resumable` without recycling, and `Resumable` can
only arise from a `Host` trap. -/
theorem c3_host_trap_wrapping
    (len_inputs len_outputs : Nat) (tramp : Trampoline) (func : Nat) (results inst : Nat)
    (call_kind : CallKind) (store : Store) (st : Stack) (e : Error)
    (hfail : tramp.call store
        (st.values.drop (st.values.length - max len_inputs len_outputs)) = .error e) :
    (executeHostFunc len_inputs len_outputs tramp func results inst call_kind store st
        = some
          ({ values := vsDrop st.values (max len_inputs len_outputs),
             calls := if call_kind = CallKind.Tail then st.calls.tail else st.calls },
           .error
             (if (if call_kind = CallKind.Tail then st.calls.tail else st.calls).isEmpty
              then .Wasm e
              else .Host func e results)))
    ∧ (∀ (env : Env) (f : Nat) (params : List Val) (lr : Nat) (store0 : Store)
         (s0 st2 : Stack) (he : Error),
        (executeRootFunc env f params lr store0 s0 = some (st2, .error (.Wasm he)) →
          executeFuncResumableM env f params lr store0 s0 = some (.error he, true))
        ∧ (∀ hf cr, executeRootFunc env f params lr store0 s0
              = some (st2, .error (.Host hf he cr)) →
            executeFuncResumableM env f params lr store0 s0
              = some (.ok (.Resumable { func := f, host_func := hf, host_error := he,
                                        caller_results := cr, stack := st2 }), false)))
    ∧ (∀ (env : Env) (f : Nat) (params : List Val) (lr : Nat) (store0 : Store)
         (s0 : Stack) (r : Except Error (ResumableCallBase (Store × List Val))) (b : Bool)
         (inv : ResumableInvocation),
        executeFuncResumableM env f params lr store0 s0 = some (r, b) →
        r = .ok (.Resumable inv) →
        b = false ∧ ∃ st2, executeRootFunc env f params lr store0 s0
            = some (st2, .error (.Host inv.host_func inv.host_error inv.caller_results))
            ∧ inv.stack = st2) := by
  refine ⟨?_, ?_, ?_⟩
  · simp only [executeHostFunc, dispatchHostFunc, hfail]
    cases call_kind with
    | Normal =>
      simp only [reduceCtorEq, if_false]
      cases hc : st.calls with
      | nil => simp [hc, List.isEmpty_nil]
      | cons c t => simp [hc]
    | Tail =>
      simp only [if_true]
      cases hc : st.calls.tail with
      | nil => simp [hc, List.isEmpty_nil]
      | cons c t => simp [hc]
  · intro env f params lr store0 s0 st2 he
    constructor
    · intro hrun
      simp only [executeFuncResumableM, hrun]
    · intro hf cr hrun
      simp only [executeFuncResumableM, hrun]
  · intro env f params lr store0 s0 r b inv hres hr
    subst hr
    unfold executeFuncResumableM at hres
    rcases hrun : executeRootFunc env f params lr store0 s0 with _ | ⟨st2, res⟩
    · rw [hrun] at hres; exact Option.noConfusion hres
    · rw [hrun] at hres
      cases res with
      | ok v => simp at hres
      | error t =>
        cases t with
        | Wasm e2 => simp at hres
        | Host hf2 he2 cr2 =>
          simp only [Option.some.injEq, Prod.mk.injEq] at hres
          obtain ⟨hres1, hres2⟩ := hres
          have hinv : inv = { func := f, host_func := hf2, host_error := he2,
                              caller_results := cr2, stack := st2 } := by
            simp only [Except.ok.injEq, ResumableCallBase.Resumable.injEq] at hres1
            exact hres1.symm
          subst hinv
          exact ⟨hres2.symm, st2, rfl, rfl⟩

theorem c3_host_trap_wrapping_witness :
    ((trFail 42).call 0
        (({ values := [0, 4], calls := [{ base_offset := 0, results := 0, inst := 0 }] } :
          Stack).values.drop
          (({ values := [0, 4], calls := [{ base_offset := 0, results := 0, inst := 0 }] } :
            Stack).values.length - max 1 1)) = .error 42)
    ∧ (executeHostFunc 1 1 (trFail 42) 2 0 0 .Normal 0
        { values := [0, 4], calls := [{ base_offset := 0, results := 0, inst := 0 }] }
        = some ({ values := [0], calls := [{ base_offset := 0, results := 0, inst := 0 }] },
                .error (.Host 2 42 0)))
    ∧ (executeFuncResumableM (envNormal (trFail 42)) 1 [] 1 0 { values := [], calls := [] }
        = some (.ok (.Resumable
            { func := 1, host_func := 2, host_error := 42, caller_results := 0,
              stack := { values := [0, 0, 1],
                         calls := [{ base_offset := 1, results := 0, inst := 0 }] } }),
          false)) :=
  ⟨rfl,
   (c3_host_trap_wrapping 1 1 (trFail 42) 2 0 0 .Normal 0
      { values := [0, 4], calls := [{ base_offset := 0, results := 0, inst := 0 }] } 42 rfl).1,
   ((c3_host_trap_wrapping 1 1 (trFail 42) 2 0 0 .Normal 0
      { values := [0, 4], calls := [{ base_offset := 0, results := 0, inst := 0 }] } 42
      rfl).2.1 (envNormal (trFail 42)) 1 [] 1 0 { values := [], calls := [] }
      { values := [0, 0, 1], calls := [{ base_offset := 1, results := 0, inst := 0 }] }
      42).2 2 0 rfl⟩

/-- Claim C2 (amended): at `dispatch_host_func`'s own entry the
`max_inout` buffer already sits on top of the value stack; the exit
length is `entry - max_inout` for a Wasm caller on success and for any
caller on failure — the failure path drops exactly `max_inout` slots
before propagating the error — and equals the entry length for a Root
caller on success, whose buffer (outputs in its first `len_outputs`
slots) is left in place for `write_results_back`. -/
theorem c2_dispatch_stack_length (len_inputs len_outputs : Nat) (tramp : Trampoline)
    (caller : HostFuncCaller) (store : Store) (st : Stack)
    (hbuf : max len_inputs len_outputs ≤ st.values.length)
    (hcaller : ∀ r i, caller = .Wasm r i → st.calls ≠ []) :
    ∃ out, dispatchHostFunc len_inputs len_outputs tramp caller store st = some out
      ∧ ((∃ e, out.2 = .error e) →
          out.1.values.length = st.values.length - max len_inputs len_outputs)
      ∧ (∀ store2, out.2 = .ok store2 →
          (∀ r i, caller = .Wasm r i →
            out.1.values.length = st.values.length - max len_inputs len_outputs)
          ∧ (caller = .Root → out.1.values.length = st.values.length)) := by
  rcases hcall : tramp.call store
      (st.values.drop (st.values.length - max len_inputs len_outputs)) with e | ⟨store2, buf2⟩
  · refine ⟨({ st with values := vsDrop st.values (max len_inputs len_outputs) }, .error e),
      ?_, ?_, ?_⟩
    · simp only [dispatchHostFunc, hcall]
    · intro _
      simp only [vsDrop, List.length_take]
      omega
    · intro store2 hok
      exact absurd hok (by simp)
  · have hb2 : buf2.length = max len_inputs len_outputs := by
      have := tramp.preserves_len _ _ _ _ hcall
      rw [this, List.length_drop]
      omega
    cases caller with
    | Root =>
      refine ⟨({ st with values := st.values.take
                             (st.values.length - max len_inputs len_outputs) ++ buf2 },
          .ok store2), ?_, ?_, ?_⟩
      · simp only [dispatchHostFunc, hcall]
      · intro he
        exact absurd he.choose_spec (by simp)
      · intro s2 _
        refine ⟨fun r i h => HostFuncCaller.noConfusion h, fun _ => ?_⟩
        simp only [List.length_append, List.length_take, hb2]
        omega
    | Wasm results_head inst =>
      have hne : st.calls ≠ [] := hcaller results_head inst rfl
      rcases hc : st.calls with _ | ⟨cf, rest⟩
      · exact absurd hc hne
      · refine ⟨({ st with values := vsDrop
                                       (copyResults
                                         (st.values.take
                                           (st.values.length - max len_inputs len_outputs)
                                           ++ buf2)
                                         cf.base_offset results_head len_outputs
                                         (max len_inputs len_outputs))
                                       (max len_inputs len_outputs) },
            .ok store2), ?_, ?_, ?_⟩
        · simp only [dispatchHostFunc, hcall, hc]
          rfl
        · intro he
          exact absurd he.choose_spec (by simp)
        · intro s2 _
          refine ⟨fun r i _ => ?_, fun h => HostFuncCaller.noConfusion h⟩
          have hlen : (copyResults
              (st.values.take (st.values.length - max len_inputs len_outputs) ++ buf2)
              cf.base_offset results_head len_outputs (max len_inputs len_outputs)).length
              = st.values.length := by
            rw [copyResults, foldl_set_length]
            simp only [List.length_append, List.length_take, hb2]
            omega
          simp only [vsDrop, hlen, List.length_take]
          omega

theorem c2_dispatch_stack_length_witness :
    (max 2 1 ≤ ({ values := [1, 2, 3], calls := [] } : Stack).values.length)
    ∧ (∃ out, dispatchHostFunc 2 1 (trFail 5) .Root 0
          { values := [1, 2, 3], calls := [] } = some out
        ∧ ((∃ e, out.2 = .error e) →
            out.1.values.length
              = ({ values := [1, 2, 3], calls := [] } : Stack).values.length - max 2 1)
        ∧ (∀ store2, out.2 = .ok store2 →
            (∀ r i, (HostFuncCaller.Root : HostFuncCaller) = .Wasm r i →
              out.1.values.length
                = ({ values := [1, 2, 3], calls := [] } : Stack).values.length - max 2 1)
            ∧ ((HostFuncCaller.Root : HostFuncCaller) = .Root →
              out.1.values.length
                = ({ values := [1, 2, 3], calls := [] } : Stack).values.length))) :=
  ⟨by decide,
   c2_dispatch_stack_length 2 1 (trFail 5) .Root 0 { values := [1, 2, 3], calls := [] }
     (by decide) (fun r i h => HostFuncCaller.noConfusion h)⟩

/-- Claim C2 (counterexample): a successful dispatch with a Wasm caller
of a 1-in/1-out host function exits with the buffer dropped: entry
length 2, exit length 1, so the exit-minus-entry difference is
`-max_inout`, not the 0 the claim states for a Wasm caller on
success. -/
theorem c2_net_zero_counterexample :
    dispatchHostFunc 1 1 (trConst 99) (.Wasm 0 0) 0
        { values := [5, 7], calls := [{ base_offset := 0, results := 0, inst := 0 }] }
      = some ({ values := [99], calls := [{ base_offset := 0, results := 0, inst := 0 }] },
              .ok 0)
    ∧ ({ values := [99],
         calls := [{ base_offset := 0, results := 0, inst := 0 }] } : Stack).values.length
      ≠ ({ values := [5, 7],
           calls := [{ base_offset := 0, results := 0, inst := 0 }] } : Stack).values.length :=
  ⟨rfl, by decide⟩

/-- Claim C5: when the callee of a tail call is a host function and the
trampoline succeeds, the result copy is performed by
`dispatch_host_func` against the still-unpopped call stack — the copy
cursor is taken at the top (tail-calling) frame's `base_offset`, and
`dispatch_host_func` returns with that frame still present — and only
afterwards does `execute_host_func` pop the caller frame for
`CallKind::Tail`. -/
theorem c5_tail_copy_before_pop (len_inputs len_outputs : Nat) (tramp : Trampoline)
    (func : Nat) (results_head inst : Nat) (store store2 : Store)
    (st : Stack) (top : CallFrame) (rest : List CallFrame) (buf2 : List Val)
    (hcalls : st.calls = top :: rest)
    (hok : tramp.call store
        (st.values.drop (st.values.length - max len_inputs len_outputs))
        = .ok (store2, buf2)) :
    dispatchHostFunc len_inputs len_outputs tramp (.Wasm results_head inst) store st
        = some ({ st with values := vsDrop
                            (copyResults
                              (st.values.take
                                (st.values.length - max len_inputs len_outputs) ++ buf2)
                              top.base_offset results_head len_outputs
                              (max len_inputs len_outputs))
                            (max len_inputs len_outputs) },
            .ok store2)
    ∧ executeHostFunc len_inputs len_outputs tramp func results_head inst .Tail store st
        = some ({ values := vsDrop
                    (copyResults
                      (st.values.take
                        (st.values.length - max len_inputs len_outputs) ++ buf2)
                      top.base_offset results_head len_outputs
                      (max len_inputs len_outputs))
                    (max len_inputs len_outputs),
                  calls := rest },
            .ok store2) := by
  have hdisp : dispatchHostFunc len_inputs len_outputs tramp
      (.Wasm results_head inst) store st
      = some ({ st with values := vsDrop
                          (copyResults
                            (st.values.take
                              (st.values.length - max len_inputs len_outputs) ++ buf2)
                            top.base_offset results_head len_outputs
                            (max len_inputs len_outputs))
                          (max len_inputs len_outputs) },
          .ok store2) := by
    simp only [dispatchHostFunc, hok, hcalls]
    rfl
  refine ⟨hdisp, ?_⟩
  simp only [executeHostFunc, hdisp, hcalls]
  rfl

theorem c5_tail_copy_before_pop_witness :
    (stTail5.calls = { base_offset := 2, results := 0, inst := 0 } ::
        [{ base_offset := 0, results := 0, inst := 0 }])
    ∧ ((trConst 99).call 0 (stTail5.values.drop (stTail5.values.length - max 1 1))
        = .ok (0, [99]))
    ∧ executeHostFunc 1 1 (trConst 99) 2 0 0 .Tail 0 stTail5
        = some ({ values := [10, 11, 99, 13],
                  calls := [{ base_offset := 0, results := 0, inst := 0 }] }, .ok 0) :=
  ⟨rfl, rfl,
   (c5_tail_copy_before_pop 1 1 (trConst 99) 2 0 0 0 0 stTail5
      { base_offset := 2, results := 0, inst := 0 }
      [{ base_offset := 0, results := 0, inst := 0 }] [99] rfl rfl).2⟩

lemma copyResults_eq_const (below buf2 : List Val) (off head max_inout : Nat)
    (hb : buf2.length = max_inout) :
    ∀ n, off + head + n ≤ below.length →
      copyResults (below ++ buf2) off head n max_inout
        = (List.range n).foldl
            (fun acc j => acc.set (off + head + j) (buf2.getD j 0)) (below ++ buf2) := by
  intro n
  induction n with
  | zero => intro _; rfl
  | succ n ih =>
    intro hlt
    have hlt' : off + head + n ≤ below.length := by omega
    simp only [copyResults] at ih ⊢
    rw [List.range_succ, List.foldl_append, List.foldl_append, ih hlt']
    simp only [List.foldl_cons, List.foldl_nil]
    congr 1
    have hK : (below ++ buf2).length - max_inout = below.length := by
      simp [hb]
    have hhigh : ((List.range n).foldl
        (fun acc j => acc.set (off + head + j) (buf2.getD j 0))
        (below ++ buf2))[below.length + n]?
        = (below ++ buf2)[below.length + n]? := by
      refine foldl_set_getElem_high (List.range n) (fun j => off + head + j)
        (fun _ j => buf2.getD j 0) below.length (below.length + n)
        (Nat.le_add_right _ _) (below ++ buf2) ?_
      intro j hj
      have hj2 := List.mem_range.mp hj
      show off + head + j < below.length
      omega
    rw [hK, List.getD_eq_getElem?_getD, List.getD_eq_getElem?_getD, hhigh]
    rw [List.getElem?_append_right (Nat.le_add_right _ _), Nat.add_sub_cancel_left]

lemma vsDrop_copyResults_eq (below buf2 : List Val) (off head n max_inout : Nat)
    (hb : buf2.length = max_inout) (hn : n ≤ max_inout)
    (hlt : off + head + n ≤ below.length) :
    vsDrop (copyResults (below ++ buf2) off head n max_inout) max_inout
      = writeParamsAt below off head (buf2.take n) := by
  have hlen : (copyResults (below ++ buf2) off head n max_inout).length
      = below.length + max_inout := by
    rw [copyResults, foldl_set_length]
    simp [hb]
  rw [vsDrop, hlen, Nat.add_sub_cancel]
  rw [copyResults_eq_const below buf2 off head max_inout hb n hlt]
  rw [take_foldl_set, List.take_left]
  rw [writeParamsAt]
  have hlen2 : (buf2.take n).length = n := by
    rw [List.length_take]; omega
  rw [hlen2]
  refine List.foldl_ext _ _ below ?_
  intro acc j hj
  have hjn : j < n := List.mem_range.mp hj
  rw [List.getD_eq_getElem?_getD, List.getD_eq_getElem?_getD, List.getElem?_take_of_lt hjn]

/-- Claim C4 (amended): for every resumable cycle whose trapping host
call was reached with `CallKind::Normal`, the resumed run coincides
with the hypothetical run in which the host call had succeeded
returning the same values: the failure path drops the buffer and parks
the stack, and `resume_func` then writes the supplied values into the
caller frame's `caller_results` span at the caller's `base_offset` —
exactly the slots `dispatch_host_func`'s success path would have
written — so the post-write stack equals the post-dispatch stack and
re-entering the same pump loop yields identical final results.  (For a
tail call the caller frame is popped between the failed dispatch and
the resumption, so the two runs write relative to different base
offsets; see the counterexample.) -/
theorem c4_resume_equivalence_normal
    (len_inputs len_outputs : Nat) (trS trF : Trampoline) (func : Nat)
    (results_head inst : Nat) (store storeS : Store) (st : Stack)
    (caller : CallFrame) (rest : List CallFrame) (buf2 : List Val) (e : Error)
    (hcalls : st.calls = caller :: rest)
    (hbuf : max len_inputs len_outputs ≤ st.values.length)
    (hdst : caller.base_offset + results_head + len_outputs
        ≤ st.values.length - max len_inputs len_outputs)
    (hS : trS.call store (st.values.drop (st.values.length - max len_inputs len_outputs))
        = .ok (storeS, buf2))
    (hF : trF.call store (st.values.drop (st.values.length - max len_inputs len_outputs))
        = .error e) :
    ∃ stS : Stack,
      dispatchHostFunc len_inputs len_outputs trS (.Wasm results_head inst) store st
          = some (stS, .ok storeS)
      ∧ executeHostFunc len_inputs len_outputs trF func results_head inst .Normal store st
          = some ({ values := vsDrop st.values (max len_inputs len_outputs),
                    calls := st.calls },
                  .error (.Host func e results_head))
      ∧ resumeWrite { values := vsDrop st.values (max len_inputs len_outputs),
                      calls := st.calls }
            results_head (buf2.take len_outputs) = some stS
      ∧ (∀ (exec : InstrExec) (resolve : Nat → FuncEntityM) (fuel len_results : Nat),
          resumeFunc exec resolve fuel
              { values := vsDrop st.values (max len_inputs len_outputs), calls := st.calls }
              storeS results_head (buf2.take len_outputs) len_results
            = pumpThenResults exec resolve fuel stS storeS len_results) := by
  have hb2 : buf2.length = max len_inputs len_outputs := by
    have := trS.preserves_len _ _ _ _ hS
    rw [this, List.length_drop]
    omega
  refine ⟨{ st with values := vsDrop
                      (copyResults
                        (st.values.take
                          (st.values.length - max len_inputs len_outputs) ++ buf2)
                        caller.base_offset results_head len_outputs
                        (max len_inputs len_outputs))
                      (max len_inputs len_outputs) }, ?_, ?_, ?_, ?_⟩
  · simp only [dispatchHostFunc, hS, hcalls]
    rfl
  · simp only [executeHostFunc, dispatchHostFunc, hF, hcalls]
    rfl
  · have hwrite : writeParamsAt (vsDrop st.values (max len_inputs len_outputs))
        caller.base_offset results_head (buf2.take len_outputs)
        = vsDrop
            (copyResults
              (st.values.take (st.values.length - max len_inputs len_outputs) ++ buf2)
              caller.base_offset results_head len_outputs (max len_inputs len_outputs))
            (max len_inputs len_outputs) := by
      have hbelow : (st.values.take
          (st.values.length - max len_inputs len_outputs)).length
          = st.values.length - max len_inputs len_outputs := by
        rw [List.length_take]
        omega
      rw [vsDrop_copyResults_eq
            (st.values.take (st.values.length - max len_inputs len_outputs)) buf2
            caller.base_offset results_head len_outputs (max len_inputs len_outputs)
            hb2 (Nat.le_max_right _ _) (by rw [hbelow]; exact hdst)]
      rfl
    simp only [resumeWrite, hcalls, List.head?_cons, Option.some.injEq]
    rw [hwrite]
  · intro exec resolve fuel len_results
    have hrw : resumeWrite { values := vsDrop st.values (max len_inputs len_outputs),
                             calls := st.calls }
        results_head (buf2.take len_outputs)
        = some { st with values := vsDrop
                             (copyResults
                               (st.values.take
                                 (st.values.length - max len_inputs len_outputs) ++ buf2)
                               caller.base_offset results_head len_outputs
                               (max len_inputs len_outputs))
                             (max len_inputs len_outputs) } := by
      have hwrite : writeParamsAt (vsDrop st.values (max len_inputs len_outputs))
          caller.base_offset results_head (buf2.take len_outputs)
          = vsDrop
              (copyResults
                (st.values.take (st.values.length - max len_inputs len_outputs) ++ buf2)
                caller.base_offset results_head len_outputs (max len_inputs len_outputs))
              (max len_inputs len_outputs) := by
        have hbelow : (st.values.take
            (st.values.length - max len_inputs len_outputs)).length
            = st.values.length - max len_inputs len_outputs := by
          rw [List.length_take]
          omega
        rw [vsDrop_copyResults_eq
              (st.values.take (st.values.length - max len_inputs len_outputs)) buf2
              caller.base_offset results_head len_outputs (max len_inputs len_outputs)
              hb2 (Nat.le_max_right _ _) (by rw [hbelow]; exact hdst)]
        rfl
      simp only [resumeWrite, hcalls, List.head?_cons, Option.some.injEq]
      rw [hwrite]
    simp only [resumeFunc, pumpThenResults]
    rw [hrw]

/-- Claim C4 (counterexample): a complete resumable cycle in which the
host function is reached by a tail call from a frame at base offset 2
above the root frame at base offset 1.  The cycle is resumable (a frame
remains after the tail pop), resuming with value 99 runs to terminal
success with results `[99]`, yet the hypothetical run in which the host
call had returned 99 directly yields results `[0]`: the success-path
copy lands at the popped frame's base offset while `resume_func` writes
at the surviving frame's base offset, so the two runs differ. -/
theorem c4_tail_resume_counterexample :
    (executeFuncResumableM (envTail (trFail 42)) 1 [] 1 0 { values := [], calls := [] }
        = some (.ok (.Resumable
            { func := 1, host_func := 2, host_error := 42, caller_results := 0,
              stack := { values := [0, 0, 1],
                         calls := [{ base_offset := 1, results := 0, inst := 0 }] } }),
          false))
    ∧ (resumeFunc execTailCex (resolveWith (trFail 42)) 3
          { values := [0, 0, 1], calls := [{ base_offset := 1, results := 0, inst := 0 }] }
          0 0 [99] 1
        = some ({ values := [99, 99, 1],
                  calls := [{ base_offset := 1, results := 0, inst := 0 }] },
                .ok (0, [99])))
    ∧ (executeRootFunc (envTail (trConst 99)) 1 [] 1 0 { values := [], calls := [] }
        = some ({ values := [0, 0, 99],
                  calls := [{ base_offset := 1, results := 0, inst := 0 }] },
                .ok (0, [0])))
    ∧ ([99] : List Val) ≠ [0] :=
  ⟨rfl, rfl, rfl, by decide⟩

theorem c4_resume_equivalence_normal_witness :
    (({ values := [5, 7], calls := [{ base_offset := 0, results := 0, inst := 0 }] } :
        Stack).calls = { base_offset := 0, results := 0, inst := 0 } :: []
      ∧ max 1 1 ≤ 2
      ∧ 0 + 0 + 1 ≤ 2 - max 1 1
      ∧ (trConst 99).call 0 ([5, 7].drop (2 - max 1 1)) = .ok (0, [99])
      ∧ (trFail 42).call 0 ([5, 7].drop (2 - max 1 1)) = .error 42)
    ∧ (∃ stS : Stack,
        dispatchHostFunc 1 1 (trConst 99) (.Wasm 0 0) 0
            { values := [5, 7], calls := [{ base_offset := 0, results := 0, inst := 0 }] }
            = some (stS, .ok 0)
        ∧ executeHostFunc 1 1 (trFail 42) 2 0 0 .Normal 0
            { values := [5, 7], calls := [{ base_offset := 0, results := 0, inst := 0 }] }
            = some ({ values := vsDrop [5, 7] (max 1 1),
                      calls := [{ base_offset := 0, results := 0, inst := 0 }] },
                    .error (.Host 2 42 0))
        ∧ resumeWrite { values := vsDrop [5, 7] (max 1 1),
                        calls := [{ base_offset := 0, results := 0, inst := 0 }] }
              0 ([99].take 1) = some stS
        ∧ (∀ (exec : InstrExec) (resolve : Nat → FuncEntityM) (fuel len_results : Nat),
            resumeFunc exec resolve fuel
                { values := vsDrop [5, 7] (max 1 1),
                  calls := [{ base_offset := 0, results := 0, inst := 0 }] }
                0 0 ([99].take 1) len_results
              = pumpThenResults exec resolve fuel stS 0 len_results)) :=
  ⟨⟨rfl, by decide, by decide, rfl, rfl⟩,
   c4_resume_equivalence_normal 1 1 (trConst 99) (trFail 42) 2 0 0 0 0
     { values := [5, 7], calls := [{ base_offset := 0, results := 0, inst := 0 }] }
     { base_offset := 0, results := 0, inst := 0 } [] [99] 42
     rfl (by decide) (by decide) rfl rfl⟩

end Wasmi
